import Mathlib

/-!
Verification of the microlambda incremental-build core: a shallow embedding of
`src/cli/src/utils/checksums.ts` (the checksum store) and
`src/core/src/graph/node.ts` (the node compilation state machine and the node
constructor's dependency recursion), together with proofs of the specified
properties of `compare`, `read`, `performTypeChecking`, the single-flight
policy, log handling, IPC notification and graph construction.

JavaScript objects used as string-keyed dictionaries are embedded as
insertion-ordered association lists with distinct keys; `null`/`undefined`
values are embedded as `Option.none`; promise rejection and thrown exceptions
are embedded as `Except.error`; side effects (subprocess spawns, logger calls,
IPC notifications, observable emissions, cache writes) are embedded as an
explicit trace of `Effect`s produced by each operation.
-/

namespace Microlambda

/-- A fingerprint map (`IChecksums` in checksums.ts): a JavaScript object mapping
source-file path to content hash, embedded as an insertion-ordered association
list. Well-formed JS objects have pairwise distinct keys. -/
abbrev IChecksums := List (String × String)

/-- Model of `Object.keys(m)`: the keys of a fingerprint map, in insertion order. -/
def objKeys (m : IChecksums) : List String := m.map Prod.fst

/-- Property access `m[k]` on a JS object: the value at the first (for a
well-formed object, unique) occurrence of key `k`, `none` when `k` is absent
(JS `undefined`). -/
def objGet (m : IChecksums) (k : String) : Option String :=
  (m.find? (fun kv => kv.1 == k)).map Prod.snd

/-- Distinctness of the keys of a fingerprint map: every JS object produced by
`JSON.parse` or by the `calculate` hash accumulation satisfies this. -/
def NodupKeys (m : IChecksums) : Prop := (objKeys m).Nodup

instance (m : IChecksums) : Decidable (NodupKeys m) := by
  unfold NodupKeys; infer_instance

/-- The body of `checksums.compare` after the `if (!old) return true` guard
(checksums.ts lines 75-94): true when the key counts differ, or when some key
of `current` is missing from `old` or maps to a different hash. -/
def compareBody (old current : IChecksums) : Bool :=
  if (objKeys old).length ≠ (objKeys current).length then true
  else
    (objKeys current).any fun key =>
      !((objKeys old).contains key) || (objGet old key != objGet current key)

/-- Model of `checksums.compare(old, current)` (checksums.ts lines 70-95) for a present
`current` argument: `old` is nullable (`read` resolves `null` when no map was
ever persisted), and `!old` short-circuits to `true` ("needs rebuild"). -/
def compare (old : Option IChecksums) (current : IChecksums) : Bool :=
  match old with
  | none => true
  | some o => compareBody o current

/-- The single way the JS `compare` can fail: `Object.keys(null)` throws a
`TypeError`. -/
inductive JsTypeError
  | typeError
deriving DecidableEq, Repr

/-- Model of `checksums.compare` with both arguments at their declared nullability:
when `old` is truthy and `current` is `null`, `Object.keys(current)` throws
(modelled as `Except.error`); when `old` is falsy the guard returns before
`current` is dereferenced. -/
def compareRaw (old current : Option IChecksums) : Except JsTypeError Bool :=
  match old with
  | none => Except.ok true
  | some o =>
    match current with
    | none => Except.error JsTypeError.typeError
    | some c => Except.ok (compareBody o c)

/-- The state of the persisted hash file for a node, as `read` distinguishes
it: never written, existing but unreadable, readable but invalid JSON, or
readable valid JSON parsing to a map. -/
inductive HashFile
  | absent
  | unreadable
  | corrupt
  | valid (m : IChecksums)
deriving DecidableEq, Repr

/-- The two ways `checksums.read` can reject: the `readFile` callback receives
an I/O error, or `JSON.parse` throws. -/
inductive ReadError
  | ioError
  | parseError
deriving DecidableEq, Repr

/-- Model of `checksums.read` (checksums.ts lines 48-69): resolves `null` when the hash
path does not exist, REJECTS on a read error or a JSON parse error, and
resolves the parsed map otherwise. -/
def read : HashFile → Except ReadError (Option IChecksums)
  | HashFile.absent => Except.ok none
  | HashFile.unreadable => Except.error ReadError.ioError
  | HashFile.corrupt => Except.error ReadError.parseError
  | HashFile.valid m => Except.ok (some m)

/-- The spec's change condition for `compare` (spec §4.1): `old` absent, or
key-set cardinality differs, or some key present in one map and missing from
the other, or some shared key mapped to different hashes. Written from the
spec's words, to be compared with `compare` (which is written from the
source). -/
def changedSpec (old : Option IChecksums) (current : IChecksums) : Prop :=
  old = none ∨
    ∃ o, old = some o ∧
      ((objKeys o).length ≠ (objKeys current).length ∨
       (∃ k, (k ∈ objKeys o ∧ k ∉ objKeys current) ∨
             (k ∈ objKeys current ∧ k ∉ objKeys o)) ∨
       (∃ k v w, objGet o k = some v ∧ objGet current k = some w ∧ v ≠ w))

/-- Enum `TranspilingStatus` (enums/compilation.status). -/
inductive TranspilingStatus
  | NOT_TRANSPILED
  | TRANSPILING
  | TRANSPILED
  | ERROR_TRANSPILING
deriving DecidableEq, Repr

/-- Enum `TypeCheckStatus` (enums/compilation.status). -/
inductive TypeCheckStatus
  | NOT_CHECKED
  | CHECKING
  | SUCCESS
  | ERROR
deriving DecidableEq, Repr

/-- The side effects a `Node` operation performs, recorded as an explicit
trace: subprocess spawns (`spawn(getBinary('tsc', ...))`), the fire-and-forget
IPC notification (`this._ipc.graphUpdated()`), the observable emissions
`_typeCheck$.next` / `_transpiled$.next`, logger lines, and checksum-store
write attempts. -/
inductive Effect
  | spawnTsc
  | ipcNotify
  | statusSet (s : TypeCheckStatus)
  | transpileSet (s : TranspilingStatus)
  | logInfo (msg : String)
  | logWarn (msg : String)
  | writeChecksums (m : IChecksums)
deriving DecidableEq, Repr

/-- The mutable `Node` fields the type-check claims concern (node.ts lines
32-43): the two status fields, the captured `_typeCheckLogs`, the `_checksums`
snapshot (`undefined` before first assignment), and whether an IPC sockets
manager was registered via `registerIPCServer`. -/
structure NodeState where
  typeCheckStatus : TypeCheckStatus
  transpilingStatus : TranspilingStatus
  typeCheckLogs : List String
  checksums : Option IChecksums
  ipcRegistered : Bool
deriving DecidableEq, Repr

/-- A freshly constructed node (node.ts lines 70-72, 37): disabled statuses
`NOT_TRANSPILED`/`NOT_CHECKED`, empty log array, no checksum snapshot, no IPC
server registered. -/
def initialNode : NodeState :=
  { typeCheckStatus := TypeCheckStatus.NOT_CHECKED
    transpilingStatus := TranspilingStatus.NOT_TRANSPILED
    typeCheckLogs := []
    checksums := none
    ipcRegistered := false }

/-- Model of `Node.setTranspilingStatus` (node.ts lines 163-172): assign the status,
notify the IPC server when one is registered, then emit on `_transpiled$`. -/
def setTranspilingStatus (st : NodeState) (status : TranspilingStatus) :
    NodeState × List Effect :=
  ({ st with transpilingStatus := status },
    (if st.ipcRegistered then [Effect.ipcNotify] else []) ++
      [Effect.transpileSet status])

/-- Model of `Node.setTypeCheckingStatus` (node.ts lines 174-177): assign the status
and emit on `_typeCheck$`; no IPC notification is performed here. -/
def setTypeCheckingStatus (st : NodeState) (status : TypeCheckStatus) :
    NodeState × List Effect :=
  ({ st with typeCheckStatus := status }, [Effect.statusSet status])

/-- Model of `JSON.stringify` of the nullable `_checksums` field, used in the skip
notice (node.ts line 308). -/
def jsonStringify : Option IChecksums → String
  | none => "null"
  | some m =>
    "\x7b" ++
      String.intercalate ","
        (m.map fun kv => "\"" ++ kv.1 ++ "\":\"" ++ kv.2 ++ "\"") ++
      "\x7d"

/-- Log message of node.ts line 354 / 368. -/
def warnChecksumMsg : String := "Error evaluating checksums for node"

/-- Log message of node.ts line 361. -/
def safeCompilingMsg : String := "Safe-compiling performing type-checks"

/-- Log message of node.ts line 304. -/
def skippedInfoMsg : String := "Skipped type-checking: sources did not change"

/-- First element assigned to `_typeCheckLogs` in the skip branch (node.ts
line 307). -/
def skipLogLine : String :=
  "Safe-compilation skipped, sources did not change since last type check. Checksums:"

/-- Log message of node.ts line 281. -/
def checksumWrittenMsg : String := "Checksum written"

/-- Log message of node.ts lines 291-293. -/
def checksumWriteWarnMsg : String :=
  "Error caching checksum for node. Next time node will be recompiled event if source does not change"

/-- How the spawned `tsc` subprocess terminates: a `close` event with an exit
code, or an `error` event (spawn failure). -/
inductive ProcOutcome
  | close (code : Nat)
  | procError
deriving DecidableEq, Repr

/-- What one subscriber of a node's type-check observable sees as terminal
event: `observer.complete()` or `observer.error(...)`. -/
inductive ObserverOutcome
  | completed
  | errored
deriving DecidableEq, Repr

/-- The environment of one type-check invocation: what the checksum store
finds on disk, what `calculate()` yields (`none` embeds a rejected hashing
promise), the stdout/stderr chunks the subprocess delivers, how it
terminates, and whether the checksum write succeeds. -/
structure InvocationEnv where
  hashFile : HashFile
  calcResult : Option IChecksums
  tscOutput : List String
  procOutcome : ProcOutcome
  writeOk : Bool
deriving Repr

/-- The value `_startTypeChecking` resolves with (node.ts line 389):
whether to recompile, and the freshly calculated (nullable) checksums. -/
structure StartAction where
  recompile : Bool
  checksums : Option IChecksums
deriving DecidableEq, Repr

/-- Model of `Node._startTypeChecking(force)` (node.ts lines 336-390): set the status
to `CHECKING`; when not forced, read the persisted checksums, calculate the
current ones, assign `this._checksums`, and compare — any rejection is caught,
`recompile` stays `true`, `calculate` is retried with a `null` fallback and a
warning is logged; when forced, only calculate (warning on rejection). Spawn
the `tsc` subprocess exactly when `recompile` holds. -/
def startTypeChecking (env : InvocationEnv) (st : NodeState) (force : Bool) :
    NodeState × StartAction × List Effect :=
  let s1 := setTypeCheckingStatus st TypeCheckStatus.CHECKING
  if force then
    match env.calcResult with
    | some cur =>
        (s1.1, ⟨true, some cur⟩, s1.2 ++ [Effect.spawnTsc])
    | none =>
        (s1.1, ⟨true, none⟩,
          s1.2 ++ [Effect.logWarn warnChecksumMsg, Effect.spawnTsc])
  else
    match read env.hashFile with
    | Except.ok old =>
      match env.calcResult with
      | some cur =>
          let recompile := compare old cur
          ({ s1.1 with checksums := some cur }, ⟨recompile, some cur⟩,
            s1.2 ++ [Effect.logInfo safeCompilingMsg] ++
              (if recompile then [Effect.spawnTsc] else []))
      | none =>
          (s1.1, ⟨true, none⟩,
            s1.2 ++ [Effect.logWarn warnChecksumMsg,
              Effect.logInfo safeCompilingMsg, Effect.spawnTsc])
    | Except.error _ =>
        (s1.1, ⟨true, env.calcResult⟩,
          s1.2 ++ [Effect.logWarn warnChecksumMsg,
            Effect.logInfo safeCompilingMsg, Effect.spawnTsc])

/-- Model of `Node._watchTypeChecking` (node.ts lines 397-436), at the moment the
subprocess terminates: on `close` with code 0 set `SUCCESS`, log, and complete
the observer; on a non-zero code or an `error` event set `ERROR`, log, and
error the observer. -/
def watchTypeChecking (st : NodeState) (outcome : ProcOutcome) :
    NodeState × ObserverOutcome × List Effect :=
  match outcome with
  | ProcOutcome.close code =>
      if code = 0 then
        let s1 := setTypeCheckingStatus st TypeCheckStatus.SUCCESS
        (s1.1, ObserverOutcome.completed,
          s1.2 ++ [Effect.logInfo "Package safe-compiled"])
      else
        let s1 := setTypeCheckingStatus st TypeCheckStatus.ERROR
        (s1.1, ObserverOutcome.errored,
          s1.2 ++ [Effect.logInfo "Error safe-compiling"])
  | ProcOutcome.procError =>
      let s1 := setTypeCheckingStatus st TypeCheckStatus.ERROR
      (s1.1, ObserverOutcome.errored,
        s1.2 ++ [Effect.logInfo "Error safe-compiling"])

/-- The outcome an external requester of `performTypeChecking` observes. -/
inductive InvocationResult
  | completed
  | errored
deriving DecidableEq, Repr

/-- The non-CHECKING branch of `Node.performTypeChecking` (node.ts lines
264-314), one fresh invocation run to quiescence: run `_startTypeChecking`;
when it asks for recompilation, the spawned subprocess streams its output
into `_typeCheckLogs` (`_handleTscLogs`, node.ts lines 392-395) and
terminates, and on completion the fresh checksums (when non-null) are written
to the store — a write failure only logs a warning and still completes; when
it reports no recompilation, log the skip notice, set `SUCCESS`, and replace
`_typeCheckLogs` with the skip lines (node.ts lines 301-312). -/
def freshTypeChecking (env : InvocationEnv) (st : NodeState) (force : Bool) :
    NodeState × InvocationResult × List Effect :=
      let s := startTypeChecking env st force
      let act := s.2.1
      if act.recompile then
        let st1 := { s.1 with typeCheckLogs := s.1.typeCheckLogs ++ env.tscOutput }
        let w := watchTypeChecking st1 env.procOutcome
        match w.2.1 with
        | ObserverOutcome.completed =>
          match act.checksums with
          | some cs =>
            if env.writeOk then
              ({ w.1 with checksums := some cs }, InvocationResult.completed,
                s.2.2 ++ w.2.2 ++
                  [Effect.writeChecksums cs, Effect.logInfo checksumWrittenMsg])
            else
              (w.1, InvocationResult.completed,
                s.2.2 ++ w.2.2 ++
                  [Effect.writeChecksums cs, Effect.logWarn checksumWriteWarnMsg])
          | none =>
              (w.1, InvocationResult.completed, s.2.2 ++ w.2.2)
        | ObserverOutcome.errored =>
            (w.1, InvocationResult.errored, s.2.2 ++ w.2.2)
      else
        let s2 := setTypeCheckingStatus s.1 TypeCheckStatus.SUCCESS
        ({ s2.1 with
            typeCheckLogs := [skipLogLine, jsonStringify s2.1.checksums] },
          InvocationResult.completed,
          s.2.2 ++ [Effect.logInfo skippedInfoMsg] ++ s2.2)

/-- Model of `Node.performTypeChecking(force)` (node.ts lines 262-325): on a node that
is already `CHECKING`, attach to the in-flight subprocess
(`_watchTypeChecking`), spawning nothing; on any other status run the fresh
invocation pipeline `freshTypeChecking`. -/
def performTypeChecking (env : InvocationEnv) (st : NodeState) (force : Bool) :
    NodeState × InvocationResult × List Effect :=
  match st.typeCheckStatus with
  | TypeCheckStatus.CHECKING =>
      let w := watchTypeChecking st env.procOutcome
      (w.1,
        (match w.2.1 with
         | ObserverOutcome.completed => InvocationResult.completed
         | ObserverOutcome.errored => InvocationResult.errored),
        w.2.2)
  | _ => freshTypeChecking env st force

/-- Mapping a subscriber's terminal event to the result its requester
reports. -/
def outcomeToResult : ObserverOutcome → InvocationResult
  | ObserverOutcome.completed => InvocationResult.completed
  | ObserverOutcome.errored => InvocationResult.errored

/-- Two concurrent `performTypeChecking` requests on the same node: the first
finds the node idle and runs `_startTypeChecking`; the second arrives while
the status is `CHECKING` and therefore takes the attach branch (node.ts lines
315-322), registering a second listener on the same in-flight subprocess. The
scenario is defined when the first request actually spawned (`recompile`);
on termination both close-handlers fire on the one shared exit code, and the
first requester's completion continues with the checksum write. -/
def twoRequestScenario (env : InvocationEnv) (st : NodeState) (force : Bool) :
    Option ((InvocationResult × InvocationResult) × List Effect) :=
  let s := startTypeChecking env st force
  if s.2.1.recompile then
    let st1 := { s.1 with typeCheckLogs := s.1.typeCheckLogs ++ env.tscOutput }
    let w1 := watchTypeChecking st1 env.procOutcome
    let w2 := watchTypeChecking w1.1 env.procOutcome
    let tail :=
      match w1.2.1, s.2.1.checksums with
      | ObserverOutcome.completed, some cs =>
          if env.writeOk then
            [Effect.writeChecksums cs, Effect.logInfo checksumWrittenMsg]
          else
            [Effect.writeChecksums cs, Effect.logWarn checksumWriteWarnMsg]
      | _, _ => []
    some ((outcomeToResult w1.2.1, outcomeToResult w2.2.1),
      s.2.2 ++ w1.2.2 ++ w2.2.2 ++ tail)
  else none

/-- A workspace manifest as the `Node` constructor consumes it: its name and
the names of its declared dependencies and devDependencies, concatenated
(node.ts lines 76-78). -/
structure WorkspaceDecl where
  name : String
  deps : List String
deriving DecidableEq, Repr

/-- The yarn project: the list of workspace manifests
(`project.workspaces`). -/
structure ProjectDecl where
  workspaces : List WorkspaceDecl
deriving DecidableEq, Repr

/-- Model of `workspaces.find((w) => getName(w) === name)` (node.ts line 87). -/
def findWorkspace (p : ProjectDecl) (name : String) : Option WorkspaceDecl :=
  p.workspaces.find? fun w => w.name == name

/-- The dependency loop of the `Node` constructor (node.ts lines 78-98),
iterating over the declared dependency names with the shared `nodes` set
threaded through (tracked by node name): an already-built dependency is
reused; an external name is skipped; an internal not-yet-built dependency is
recursively constructed via `buildDep`. -/
def buildDeps (p : ProjectDecl)
    (buildDep : WorkspaceDecl → List String → Option (List String)) :
    List String → List String → Option (List String)
  | [], acc => some acc
  | d :: ds, acc =>
    if acc.contains d then buildDeps p buildDep ds acc
    else
      match findWorkspace p d with
      | none => buildDeps p buildDep ds acc
      | some dw =>
        match buildDep dw acc with
        | none => none
        | some acc' => buildDeps p buildDep ds acc'

/-- The `Node` constructor recursion (node.ts lines 56-102): construct every
not-yet-built internal dependency recursively, and only THEN add this node's
own name to the shared `nodes` set (`nodes.add(this)` is the constructor's
last statement, line 101). The constructor performs no cycle check, so the
recursion depth is bounded only by the dependency chains; `fuel` bounds the
modelled call stack, and a `none` result means the recursion exceeded every
bound (the JS original overflows the stack). -/
def buildNode (p : ProjectDecl) :
    Nat → WorkspaceDecl → List String → Option (List String)
  | 0, _, _ => none
  | fuel + 1, w, nodes =>
    match buildDeps p (buildNode p fuel) w.deps nodes with
    | none => none
    | some acc => some (acc ++ [w.name])

/-- The two-node cyclic workspace of the cycle-rejection property: A depends
on B and B depends on A. -/
def cyclicProject : ProjectDecl :=
  { workspaces := [⟨"A", ["B"]⟩, ⟨"B", ["A"]⟩] }

theorem contains_objKeys {m : IChecksums} {k : String} :
    (objKeys m).contains k = true ↔ k ∈ objKeys m :=
  List.elem_iff

theorem mem_objKeys {m : IChecksums} {k : String} :
    k ∈ objKeys m ↔ ∃ v, (k, v) ∈ m := by
  unfold objKeys
  constructor
  · intro h
    rcases List.mem_map.mp h with ⟨⟨a, b⟩, hab, hk⟩
    have hk' : a = k := hk
    exact ⟨b, hk' ▸ hab⟩
  · rintro ⟨v, hv⟩
    exact List.mem_map.mpr ⟨(k, v), hv, rfl⟩

theorem objGet_eq_none_iff {m : IChecksums} {k : String} :
    objGet m k = none ↔ k ∉ objKeys m := by
  unfold objGet
  rw [Option.map_eq_none', List.find?_eq_none]
  constructor
  · intro h hk
    rcases mem_objKeys.mp hk with ⟨v, hv⟩
    exact absurd (by simp : ((k, v).1 == k) = true) (h _ hv)
  · intro h kv hkv hbeq
    exact h (mem_objKeys.mpr ⟨kv.2, by
      have : kv.1 = k := by simpa using hbeq
      simpa [← this] using hkv⟩)

theorem objGet_mem {m : IChecksums} {k v : String}
    (h : objGet m k = some v) : (k, v) ∈ m := by
  unfold objGet at h
  rcases Option.map_eq_some'.mp h with ⟨kv, hfind, hsnd⟩
  have h1 : kv.1 = k := by simpa using List.find?_some hfind
  have h2 : kv ∈ m := List.mem_of_find?_eq_some hfind
  have : kv = (k, v) := by
    cases kv; simp_all
  simpa [← this] using h2

theorem objGet_isSome_of_mem_keys {m : IChecksums} {k : String}
    (h : k ∈ objKeys m) : ∃ v, objGet m k = some v := by
  rcases mem_objKeys.mp h with ⟨v, hv⟩
  have : (m.find? (fun kv => kv.1 == k)).isSome :=
    List.find?_isSome.mpr ⟨(k, v), hv, by simp⟩
  rcases Option.isSome_iff_exists.mp this with ⟨kv, hkv⟩
  exact ⟨kv.2, by simp [objGet, hkv]⟩

theorem objGet_eq_some_of_mem {m : IChecksums} (hm : NodupKeys m)
    {k v : String} (h : (k, v) ∈ m) : objGet m k = some v := by
  induction m with
  | nil => cases h
  | cons kv tl ih =>
    rcases List.mem_cons.mp h with heq | htl
    · subst heq
      simp [objGet, List.find?_cons_of_pos]
    · have hnd : (kv.1 :: objKeys tl).Nodup := hm
      have hne : kv.1 ≠ k := by
        intro hk
        have hkmem : k ∈ objKeys tl := mem_objKeys.mpr ⟨v, htl⟩
        exact (List.nodup_cons.mp hnd).1 (hk ▸ hkmem)
      have htm : NodupKeys tl := (List.nodup_cons.mp hnd).2
      have := ih htm htl
      simpa [objGet, List.find?_cons_of_neg, hne] using this

theorem keys_perm_of_perm {o c : IChecksums} (h : o.Perm c) :
    (objKeys o).Perm (objKeys c) := h.map Prod.fst

theorem compareBody_eq_true_iff {o c : IChecksums}
    (ho : NodupKeys o) (hc : NodupKeys c) :
    compareBody o c = true ↔
      ((objKeys o).length ≠ (objKeys c).length ∨
       (∃ k, (k ∈ objKeys o ∧ k ∉ objKeys c) ∨
             (k ∈ objKeys c ∧ k ∉ objKeys o)) ∨
       (∃ k v w, objGet o k = some v ∧ objGet c k = some w ∧ v ≠ w)) := by
  unfold compareBody
  by_cases hlen : (objKeys o).length = (objKeys c).length
  · rw [if_neg (by simpa using hlen)]
    constructor
    · intro h
      rcases List.any_eq_true.mp h with ⟨k, hk, hp⟩
      rw [Bool.or_eq_true] at hp
      rcases hp with hmiss | hdiff
      · have hko : k ∉ objKeys o := by simpa using hmiss
        exact Or.inr (Or.inl ⟨k, Or.inr ⟨hk, hko⟩⟩)
      · have hne : objGet o k ≠ objGet c k := bne_iff_ne.mp hdiff
        rcases objGet_isSome_of_mem_keys hk with ⟨w, hw⟩
        match hov : objGet o k with
        | none =>
            exact Or.inr (Or.inl ⟨k, Or.inr ⟨hk, objGet_eq_none_iff.mp hov⟩⟩)
        | some v =>
            exact Or.inr (Or.inr ⟨k, v, w, hov, hw, fun hvw => hne (by rw [hov, hw, hvw])⟩)
    · intro h
      rcases h with h | ⟨k, ⟨hko, hkc⟩ | ⟨hkc, hko⟩⟩ | ⟨k, v, w, hov, hcw, hvw⟩
      · exact absurd hlen h
      · -- a key of `o` missing from `c`: with equal key counts, some key of
        -- `c` must in turn be missing from `o`
        by_cases hsub : ∀ x ∈ objKeys c, x ∈ objKeys o
        · exfalso
          have hperm : (objKeys c).Perm (objKeys o) :=
            (List.subperm_of_subset hc hsub).perm_of_length_le (le_of_eq hlen)
          exact hkc (hperm.mem_iff.mpr hko)
        · push_neg at hsub
          rcases hsub with ⟨x, hxc, hxo⟩
          refine List.any_eq_true.mpr ⟨x, hxc, ?_⟩
          rw [Bool.or_eq_true]
          exact Or.inl (by simpa using hxo)
      · refine List.any_eq_true.mpr ⟨k, hkc, ?_⟩
        rw [Bool.or_eq_true]
        exact Or.inl (by simpa using hko)
      · refine List.any_eq_true.mpr ⟨k, mem_objKeys.mpr ⟨w, objGet_mem hcw⟩, ?_⟩
        rw [Bool.or_eq_true]
        refine Or.inr ?_
        rw [hov, hcw]
        exact bne_iff_ne.mpr (by simpa using hvw)
  · rw [if_pos (by simpa using hlen)]
    simp only [true_iff]
    exact Or.inl hlen

theorem compareBody_eq_false_of_perm {o c : IChecksums}
    (hc : NodupKeys c) (h : o.Perm c) : compareBody o c = false := by
  have ho : NodupKeys o := by
    unfold NodupKeys
    exact (keys_perm_of_perm h).nodup_iff.mpr hc
  rw [Bool.eq_false_iff]
  intro htrue
  rcases (compareBody_eq_true_iff ho hc).mp htrue with
    hlen | ⟨k, ⟨hko, hkc⟩ | ⟨hkc, hko⟩⟩ | ⟨k, v, w, hov, hcw, hvw⟩
  · exact hlen (keys_perm_of_perm h).length_eq
  · exact hkc ((keys_perm_of_perm h).mem_iff.mp hko)
  · exact hko ((keys_perm_of_perm h).mem_iff.mpr hkc)
  · have : (k, v) ∈ c := h.mem_iff.mp (objGet_mem hov)
    have : objGet c k = some v := objGet_eq_some_of_mem hc this
    rw [hcw] at this
    exact hvw (by simpa using this.symm)

/-- C3: as specified, `checksums.compare(old, current)` returns true ("needs rebuild")
iff the old map is absent, or the key-set cardinalities differ, or some key is
present in one map and missing from the other, or some shared key maps to
different hashes; and it is order-independent: on two maps holding identical
key/hash pairs in different insertion orders it returns false
("unchanged"). -/
theorem compare_matches_spec (old : Option IChecksums) (current : IChecksums)
    (h1 : ∀ o, old = some o → NodupKeys o) (h2 : NodupKeys current) :
    (compare old current = true ↔ changedSpec old current) ∧
    (∀ o, old = some o → o.Perm current → compare old current = false) := by
  constructor
  · cases old with
    | none =>
        constructor
        · intro _
          exact Or.inl rfl
        · intro _
          rfl
    | some o =>
        have hbody : compare (some o) current = compareBody o current := rfl
        rw [hbody, compareBody_eq_true_iff (h1 o rfl) h2]
        unfold changedSpec
        constructor
        · intro h
          exact Or.inr ⟨o, rfl, h⟩
        · rintro (h | ⟨o', ho', h⟩)
          · cases h
          · injection ho' with h'
            subst h'
            exact h
  · intro o hEq hperm
    subst hEq
    exact compareBody_eq_false_of_perm h2 hperm

/-- Witness for C3 at a concrete pair of one-entry maps. -/
theorem compare_matches_spec_witness :
    (compare (some [("a.ts", "h1")]) [("a.ts", "h1")] = true ↔
      changedSpec (some [("a.ts", "h1")]) [("a.ts", "h1")]) ∧
    (∀ o, (some [("a.ts", "h1")] : Option IChecksums) = some o →
      o.Perm [("a.ts", "h1")] →
      compare (some [("a.ts", "h1")]) [("a.ts", "h1")] = false) :=
  compare_matches_spec (some [("a.ts", "h1")]) [("a.ts", "h1")]
    (fun o h => by cases h; decide) (by decide)

/-- C10: the raw JS `compare` is total only in its second argument being a
present map: with a present `old` and a null `current` it throws a `TypeError`
(`Object.keys(null)`), with a present `current` it always returns a boolean
verdict; and inside `_startTypeChecking` the throwing branch is unreachable —
the comparison is only reached with the freshly and successfully calculated
current map, and `recompile` is exactly the returned verdict. -/
theorem compareRaw_null_current (env : InvocationEnv) (st : NodeState)
    (old : Option IChecksums) (cur : IChecksums)
    (hread : read env.hashFile = Except.ok old)
    (hcalc : env.calcResult = some cur) :
    (∀ o : IChecksums,
      compareRaw (some o) none = Except.error JsTypeError.typeError) ∧
    (∀ om c, compareRaw om (some c) = Except.ok (compare om c)) ∧
    (∃ b, compareRaw old (some cur) = Except.ok b ∧
      (startTypeChecking env st false).2.1.recompile = b) := by
  refine ⟨fun o => rfl, fun om c => by cases om <;> rfl,
    ⟨compare old cur, by cases old <;> rfl, ?_⟩⟩
  simp [startTypeChecking, hread, hcalc, setTypeCheckingStatus]

/-- Witness for C10 at a concrete environment whose hash file holds a map and
whose calculation succeeds. -/
theorem compareRaw_null_current_witness :
    (∀ o : IChecksums,
      compareRaw (some o) none = Except.error JsTypeError.typeError) ∧
    (∀ om c, compareRaw om (some c) = Except.ok (compare om c)) ∧
    (∃ b, compareRaw (some [("a.ts", "h1")]) (some [("a.ts", "h2")]) = Except.ok b ∧
      (startTypeChecking
        ⟨HashFile.valid [("a.ts", "h1")], some [("a.ts", "h2")], [],
          ProcOutcome.close 0, true⟩
        initialNode false).2.1.recompile = b) :=
  compareRaw_null_current
    ⟨HashFile.valid [("a.ts", "h1")], some [("a.ts", "h2")], [],
      ProcOutcome.close 0, true⟩
    initialNode (some [("a.ts", "h1")]) [("a.ts", "h2")] rfl rfl

/-- Counterexample to C4 as stated: on a corrupt or unreadable hash file,
`checksums.read` rejects (the error is escalated to `read`'s caller) instead
of resolving "absent". -/
theorem read_corrupt_rejects :
    read HashFile.corrupt = Except.error ReadError.parseError ∧
    read HashFile.unreadable = Except.error ReadError.ioError ∧
    read HashFile.corrupt ≠ Except.ok none := by
  refine ⟨rfl, rfl, ?_⟩
  simp [read]

/-- C4 amended: `read` resolves "absent" when no map was ever persisted
and resolves the parsed map from a valid file, but rejects on an unreadable or
corrupt file; the rejection is caught locally by the node's checksum
evaluation — `recompile` stays true and a warning is logged, so a corrupt
cache degrades to "needs rebuild" and is never fatal to the invocation. -/
theorem read_absent_and_local_recovery (env : InvocationEnv) (st : NodeState)
    (h : env.hashFile = HashFile.unreadable ∨ env.hashFile = HashFile.corrupt) :
    read HashFile.absent = Except.ok none ∧
    (∀ m, read (HashFile.valid m) = Except.ok (some m)) ∧
    (startTypeChecking env st false).2.1.recompile = true ∧
    Effect.logWarn warnChecksumMsg ∈ (startTypeChecking env st false).2.2 := by
  refine ⟨rfl, fun m => rfl, ?_, ?_⟩ <;>
    rcases h with h | h <;>
      simp [startTypeChecking, h, read, setTypeCheckingStatus]

/-- Witness for C4's amended statement at a concrete corrupt cache file. -/
theorem read_absent_and_local_recovery_witness :
    read HashFile.absent = Except.ok none ∧
    (∀ m, read (HashFile.valid m) = Except.ok (some m)) ∧
    (startTypeChecking
      ⟨HashFile.corrupt, some [("a.ts", "h1")], [], ProcOutcome.close 0, true⟩
      initialNode false).2.1.recompile = true ∧
    Effect.logWarn warnChecksumMsg ∈
      (startTypeChecking
        ⟨HashFile.corrupt, some [("a.ts", "h1")], [], ProcOutcome.close 0, true⟩
        initialNode false).2.2 :=
  read_absent_and_local_recovery
    ⟨HashFile.corrupt, some [("a.ts", "h1")], [], ProcOutcome.close 0, true⟩
    initialNode (Or.inr rfl)

/-- C5, the code evaluated at the failing input: on the cyclic workspace
where A depends on B and B depends on A, the Node-constructor recursion never
terminates — it exhausts every stack bound, because a node is added to the
shared deduplication set only AFTER all its dependencies are recursively
constructed (node.ts line 101), so neither A nor B ever observes the other as
already built; no structural cycle error is ever produced. -/
theorem buildNode_cycle_diverges :
    ∀ fuel acc, "A" ∉ acc → "B" ∉ acc →
      buildNode cyclicProject fuel ⟨"A", ["B"]⟩ acc = none ∧
      buildNode cyclicProject fuel ⟨"B", ["A"]⟩ acc = none := by
  intro fuel
  induction fuel with
  | zero =>
      intro acc _ _
      exact ⟨rfl, rfl⟩
  | succ n ih =>
      intro acc hA hB
      have hcA : acc.contains "A" = false := by simpa using hA
      have hcB : acc.contains "B" = false := by simpa using hB
      constructor
      · have hrec := (ih acc hA hB).2
        simp only [cyclicProject] at hrec
        simp [buildNode, buildDeps, findWorkspace, cyclicProject, hcB, hB, hrec]
      · have hrec := (ih acc hA hB).1
        simp only [cyclicProject] at hrec
        simp [buildNode, buildDeps, findWorkspace, cyclicProject, hcA, hA, hrec]

/-- Witness for C5's divergence at the concrete cyclic workspace and a large
concrete stack bound. -/
theorem buildNode_cycle_diverges_witness :
    buildNode cyclicProject 1000 ⟨"A", ["B"]⟩ [] = none ∧
    buildNode cyclicProject 1000 ⟨"B", ["A"]⟩ [] = none :=
  buildNode_cycle_diverges 1000 [] (by simp) (by simp)

/-- Counterexample to C9 as stated: on a node with a registered IPC observer,
a type-check state transition emits no IPC notification —
`setTypeCheckingStatus` only pushes on the node's `_typeCheck$` stream. -/
theorem setTypeCheckingStatus_no_ipc :
    (setTypeCheckingStatus
      ⟨TypeCheckStatus.NOT_CHECKED, TranspilingStatus.NOT_TRANSPILED, [],
        none, true⟩
      TypeCheckStatus.CHECKING).2 =
        [Effect.statusSet TypeCheckStatus.CHECKING] ∧
    Effect.ipcNotify ∉
      (setTypeCheckingStatus
        ⟨TypeCheckStatus.NOT_CHECKED, TranspilingStatus.NOT_TRANSPILED, [],
          none, true⟩
        TypeCheckStatus.CHECKING).2 := by
  refine ⟨rfl, ?_⟩
  simp [setTypeCheckingStatus]

/-- C9 amended: with a registered IPC observer, every TRANSPILE-state
transition triggers the fire-and-forget notify hook, but TYPE-CHECK-state
transitions never do — `setTypeCheckingStatus` omits the IPC call. -/
theorem ipc_notify_only_on_transpile_transitions (st : NodeState)
    (ts : TranspilingStatus) (cs : TypeCheckStatus)
    (h : st.ipcRegistered = true) :
    Effect.ipcNotify ∈ (setTranspilingStatus st ts).2 ∧
    Effect.ipcNotify ∉ (setTypeCheckingStatus st cs).2 := by
  simp [setTranspilingStatus, setTypeCheckingStatus, h]

/-- Witness for C9's amended statement at a concrete node with a registered
IPC observer. -/
theorem ipc_notify_only_on_transpile_transitions_witness :
    Effect.ipcNotify ∈
      (setTranspilingStatus
        ⟨TypeCheckStatus.NOT_CHECKED, TranspilingStatus.NOT_TRANSPILED, [],
          none, true⟩
        TranspilingStatus.TRANSPILING).2 ∧
    Effect.ipcNotify ∉
      (setTypeCheckingStatus
        ⟨TypeCheckStatus.NOT_CHECKED, TranspilingStatus.NOT_TRANSPILED, [],
          none, true⟩
        TypeCheckStatus.SUCCESS).2 :=
  ipc_notify_only_on_transpile_transitions _ _ _ rfl

theorem watch_close_zero (st : NodeState) :
    watchTypeChecking st (ProcOutcome.close 0) =
      ({ st with typeCheckStatus := TypeCheckStatus.SUCCESS },
        ObserverOutcome.completed,
        [Effect.statusSet TypeCheckStatus.SUCCESS,
          Effect.logInfo "Package safe-compiled"]) := rfl

theorem watch_not_zero (st : NodeState) (oc : ProcOutcome)
    (h : oc ≠ ProcOutcome.close 0) :
    watchTypeChecking st oc =
      ({ st with typeCheckStatus := TypeCheckStatus.ERROR },
        ObserverOutcome.errored,
        [Effect.statusSet TypeCheckStatus.ERROR,
          Effect.logInfo "Error safe-compiling"]) := by
  cases oc with
  | close code =>
      cases code with
      | zero => exact absurd rfl h
      | succ n => rfl
  | procError => rfl

theorem start_preserves_logs (env : InvocationEnv) (st : NodeState)
    (force : Bool) :
    (startTypeChecking env st force).1.typeCheckLogs = st.typeCheckLogs := by
  unfold startTypeChecking
  cases force <;> cases env.hashFile <;> cases env.calcResult <;>
    simp [read, setTypeCheckingStatus]

theorem start_forced_recompile (env : InvocationEnv) (st : NodeState) :
    (startTypeChecking env st true).2.1.recompile = true := by
  unfold startTypeChecking
  cases env.calcResult <;> simp [setTypeCheckingStatus]

theorem spawn_count_start (env : InvocationEnv) (st : NodeState) (force : Bool)
    (hrec : (startTypeChecking env st force).2.1.recompile = true) :
    ((startTypeChecking env st force).2.2).count Effect.spawnTsc = 1 := by
  obtain ⟨hf, cr, out, oc, wok⟩ := env
  unfold startTypeChecking at hrec ⊢
  cases force <;> cases hf <;> cases cr <;>
    simp_all [read, setTypeCheckingStatus, List.count_cons, List.count_append]

theorem spawn_count_watch (st : NodeState) (oc : ProcOutcome) :
    ((watchTypeChecking st oc).2.2).count Effect.spawnTsc = 0 := by
  by_cases h : oc = ProcOutcome.close 0
  · subst h
    rfl
  · rw [watch_not_zero st oc h]
    rfl

theorem spawn_not_in_watch (st : NodeState) (oc : ProcOutcome) :
    Effect.spawnTsc ∉ (watchTypeChecking st oc).2.2 := by
  by_cases h : oc = ProcOutcome.close 0
  · subst h
    rw [watch_close_zero]
    simp
  · rw [watch_not_zero st oc h]
    simp

theorem write_not_in_start (env : InvocationEnv) (st : NodeState)
    (force : Bool) (m : IChecksums) :
    Effect.writeChecksums m ∉ (startTypeChecking env st force).2.2 := by
  unfold startTypeChecking
  cases force <;> cases env.hashFile <;> cases env.calcResult <;>
    simp [read, setTypeCheckingStatus] <;> split <;> simp

theorem write_not_in_watch (st : NodeState) (oc : ProcOutcome)
    (m : IChecksums) :
    Effect.writeChecksums m ∉ (watchTypeChecking st oc).2.2 := by
  by_cases h : oc = ProcOutcome.close 0
  · subst h
    rw [watch_close_zero]
    simp
  · rw [watch_not_zero st oc h]
    simp

/-- C1: when `force` is false and the comparison of the last-persisted
map against the freshly calculated map reports unchanged, a
`performTypeChecking` request on a node with no in-flight check spawns no
subprocess, the node ends in `SUCCESS` with the invocation completing, and
the skip is recorded — the skip notice is logged and `_typeCheckLogs` holds
exactly the skip lines. -/
theorem skip_short_circuit (env : InvocationEnv) (st : NodeState)
    (old : Option IChecksums) (cur : IChecksums)
    (hts : st.typeCheckStatus ≠ TypeCheckStatus.CHECKING)
    (hread : read env.hashFile = Except.ok old)
    (hcalc : env.calcResult = some cur)
    (hcmp : compare old cur = false) :
    Effect.spawnTsc ∉ (performTypeChecking env st false).2.2 ∧
    (performTypeChecking env st false).1.typeCheckStatus =
      TypeCheckStatus.SUCCESS ∧
    (performTypeChecking env st false).2.1 = InvocationResult.completed ∧
    Effect.logInfo skippedInfoMsg ∈ (performTypeChecking env st false).2.2 ∧
    (performTypeChecking env st false).1.typeCheckLogs =
      [skipLogLine, jsonStringify (some cur)] := by
  cases hsts : st.typeCheckStatus with
  | CHECKING => exact absurd hsts hts
  | NOT_CHECKED =>
      simp [performTypeChecking, freshTypeChecking, hsts, startTypeChecking, hread, hcalc, hcmp,
        setTypeCheckingStatus, skippedInfoMsg, skipLogLine]
  | SUCCESS =>
      simp [performTypeChecking, freshTypeChecking, hsts, startTypeChecking, hread, hcalc, hcmp,
        setTypeCheckingStatus, skippedInfoMsg, skipLogLine]
  | ERROR =>
      simp [performTypeChecking, freshTypeChecking, hsts, startTypeChecking, hread, hcalc, hcmp,
        setTypeCheckingStatus, skippedInfoMsg, skipLogLine]

/-- Witness for C1 at a concrete unchanged one-file node. -/
theorem skip_short_circuit_witness :
    Effect.spawnTsc ∉
      (performTypeChecking
        ⟨HashFile.valid [("a.ts", "h1")], some [("a.ts", "h1")], [],
          ProcOutcome.close 0, true⟩ initialNode false).2.2 ∧
    (performTypeChecking
      ⟨HashFile.valid [("a.ts", "h1")], some [("a.ts", "h1")], [],
        ProcOutcome.close 0, true⟩ initialNode false).1.typeCheckStatus =
      TypeCheckStatus.SUCCESS ∧
    (performTypeChecking
      ⟨HashFile.valid [("a.ts", "h1")], some [("a.ts", "h1")], [],
        ProcOutcome.close 0, true⟩ initialNode false).2.1 =
      InvocationResult.completed ∧
    Effect.logInfo skippedInfoMsg ∈
      (performTypeChecking
        ⟨HashFile.valid [("a.ts", "h1")], some [("a.ts", "h1")], [],
          ProcOutcome.close 0, true⟩ initialNode false).2.2 ∧
    (performTypeChecking
      ⟨HashFile.valid [("a.ts", "h1")], some [("a.ts", "h1")], [],
        ProcOutcome.close 0, true⟩ initialNode false).1.typeCheckLogs =
      [skipLogLine, jsonStringify (some [("a.ts", "h1")])] :=
  skip_short_circuit
    ⟨HashFile.valid [("a.ts", "h1")], some [("a.ts", "h1")], [],
      ProcOutcome.close 0, true⟩ initialNode
    (some [("a.ts", "h1")]) [("a.ts", "h1")]
    (by simp [initialNode]) rfl rfl (by decide)

/-- C2, single-flight: when a first request finds the node idle and its
start phase decides to recompile (spawning the one subprocess), a second
request arriving while the node is `CHECKING` attaches to the in-flight run;
the whole two-request scenario performs exactly one subprocess spawn and both
requesters observe the same terminal outcome. -/
theorem single_flight (env : InvocationEnv) (st : NodeState) (force : Bool)
    (hts : st.typeCheckStatus ≠ TypeCheckStatus.CHECKING)
    (hrec : (startTypeChecking env st force).2.1.recompile = true) :
    ∃ r effs, twoRequestScenario env st force = some ((r, r), effs) ∧
      effs.count Effect.spawnTsc = 1 := by
  clear hts
  obtain ⟨hf, cr, out, oc, wok⟩ := env
  simp only [twoRequestScenario, hrec, eq_self_iff_true, if_true]
  cases oc with
  | close code =>
      cases code with
      | zero =>
          refine ⟨_, _, rfl, ?_⟩
          rw [List.count_append, List.count_append, List.count_append,
            spawn_count_start _ st force hrec, spawn_count_watch,
            spawn_count_watch]
          cases hcs :
              (startTypeChecking ⟨hf, cr, out, ProcOutcome.close 0, wok⟩ st
                force).2.1.checksums with
          | none => rfl
          | some cs => cases wok <;> rfl
      | succ n =>
          refine ⟨_, _, rfl, ?_⟩
          rw [List.count_append, List.count_append, List.count_append,
            spawn_count_start _ st force hrec, spawn_count_watch,
            spawn_count_watch]
          rfl
  | procError =>
      refine ⟨_, _, rfl, ?_⟩
      rw [List.count_append, List.count_append, List.count_append,
        spawn_count_start _ st force hrec, spawn_count_watch,
        spawn_count_watch]
      rfl

/-- Witness for C2 at a concrete forced request whose subprocess exits 0. -/
theorem single_flight_witness :
    ∃ r effs,
      twoRequestScenario
        ⟨HashFile.absent, some [("a.ts", "h1")], ["out"],
          ProcOutcome.close 0, true⟩ initialNode true = some ((r, r), effs) ∧
      effs.count Effect.spawnTsc = 1 :=
  single_flight
    ⟨HashFile.absent, some [("a.ts", "h1")], ["out"],
      ProcOutcome.close 0, true⟩ initialNode true
    (by simp [initialNode]) (by decide)

/-- Counterexample to C7 as stated: in a non-forced invocation with changed
sources, `_checksums` is overwritten with the freshly calculated map already
in the checksum-evaluation phase (node.ts line 346), before the subprocess
outcome is known — and when the run then ends in ERROR the snapshot still
holds the fresh (not known-good) map instead of its previous value. -/
theorem lastChecksums_updated_speculatively :
    (performTypeChecking
      ⟨HashFile.valid [("a.ts", "old")], some [("a.ts", "new")], [],
        ProcOutcome.close 2, true⟩
      { initialNode with checksums := some [("a.ts", "old")] }
      false).2.1 = InvocationResult.errored ∧
    (performTypeChecking
      ⟨HashFile.valid [("a.ts", "old")], some [("a.ts", "new")], [],
        ProcOutcome.close 2, true⟩
      { initialNode with checksums := some [("a.ts", "old")] }
      false).1.checksums = some [("a.ts", "new")] ∧
    (startTypeChecking
      ⟨HashFile.valid [("a.ts", "old")], some [("a.ts", "new")], [],
        ProcOutcome.close 2, true⟩
      { initialNode with checksums := some [("a.ts", "old")] }
      false).1.checksums = some [("a.ts", "new")] ∧
    some [("a.ts", "new")] ≠
      ({ initialNode with checksums := some [("a.ts", "old")] } :
        NodeState).checksums := by
  refine ⟨rfl, rfl, rfl, ?_⟩
  simp [initialNode]

/-- C7 amended: in a FORCED invocation the snapshot is updated only after
a successful run whose checksum write succeeds, keeping its previous value in
every other case; but in a NON-FORCED invocation whose read and calculation
succeed, the snapshot is assigned the freshly calculated map already during
the checksum-evaluation phase, before the subprocess outcome is known. -/
theorem lastChecksums_update_policy (env : InvocationEnv) (st : NodeState)
    (hts : st.typeCheckStatus ≠ TypeCheckStatus.CHECKING) :
    ((startTypeChecking env st true).1.checksums = st.checksums) ∧
    ((performTypeChecking env st true).1.checksums =
      if env.procOutcome = ProcOutcome.close 0 ∧ env.writeOk = true ∧
          env.calcResult ≠ none
        then env.calcResult else st.checksums) ∧
    (∀ old cur, read env.hashFile = Except.ok old → env.calcResult = some cur →
      (startTypeChecking env st false).1.checksums = some cur) := by
  obtain ⟨hf, cr, out, oc, wok⟩ := env
  refine ⟨?_, ?_, ?_⟩
  · cases cr <;> simp [startTypeChecking, setTypeCheckingStatus]
  · cases hsts : st.typeCheckStatus
    case CHECKING => exact absurd hsts hts
    all_goals
      cases oc with
      | close code =>
          cases code with
          | zero =>
              cases wok <;> cases cr <;>
                simp [performTypeChecking, freshTypeChecking, hsts, startTypeChecking,
                  setTypeCheckingStatus, watchTypeChecking]
          | succ n =>
              cases wok <;> cases cr <;>
                simp [performTypeChecking, freshTypeChecking, hsts, startTypeChecking,
                  setTypeCheckingStatus, watchTypeChecking]
      | procError =>
          cases wok <;> cases cr <;>
            simp [performTypeChecking, freshTypeChecking, hsts, startTypeChecking,
              setTypeCheckingStatus, watchTypeChecking]
  · intro old cur hread hcalc
    cases hf <;> cases cr <;>
      simp_all [startTypeChecking, read, setTypeCheckingStatus]

/-- Witness for C7's amended statement at a concrete forced invocation that
succeeds and persists. -/
theorem lastChecksums_update_policy_witness :
    ((startTypeChecking
      ⟨HashFile.absent, some [("a.ts", "h2")], [], ProcOutcome.close 0, true⟩
      initialNode true).1.checksums = initialNode.checksums) ∧
    ((performTypeChecking
      ⟨HashFile.absent, some [("a.ts", "h2")], [], ProcOutcome.close 0, true⟩
      initialNode true).1.checksums =
      if (ProcOutcome.close 0 = ProcOutcome.close 0 ∧ (true : Bool) = true ∧
          (some [("a.ts", "h2")] : Option IChecksums) ≠ none)
        then some [("a.ts", "h2")] else initialNode.checksums) ∧
    (∀ old cur,
      read HashFile.absent = Except.ok old →
      (some [("a.ts", "h2")] : Option IChecksums) = some cur →
      (startTypeChecking
        ⟨HashFile.absent, some [("a.ts", "h2")], [], ProcOutcome.close 0, true⟩
        initialNode false).1.checksums = some cur) :=
  lastChecksums_update_policy
    ⟨HashFile.absent, some [("a.ts", "h2")], [], ProcOutcome.close 0, true⟩
    initialNode (by simp [initialNode])

/-- Counterexample to C8 as stated: `_typeCheckLogs` is never cleared at the
start of an invocation — after a second recompiling invocation the log
sequence still begins with the chunk captured during the FIRST invocation. -/
theorem logs_not_cleared :
    (performTypeChecking
      ⟨HashFile.absent, some [("a.ts", "h2")], ["error TS2"],
        ProcOutcome.close 2, true⟩
      (performTypeChecking
        ⟨HashFile.absent, some [("a.ts", "h1")], ["error TS1"],
          ProcOutcome.close 2, true⟩
        initialNode false).1
      false).1.typeCheckLogs = ["error TS1", "error TS2"] ∧
    ("error TS1" : String) ≠ "error TS2" := by
  refine ⟨rfl, ?_⟩
  decide

/-- C8 amended: the captured-output log sequence is NOT cleared at the
start of a new invocation: a recompiling invocation appends the newly
captured chunks to whatever the node already stored, and only a skip
invocation replaces the whole sequence with the skip notice. -/
theorem logs_append_policy (env : InvocationEnv) (st : NodeState)
    (force : Bool) (hts : st.typeCheckStatus ≠ TypeCheckStatus.CHECKING) :
    ((startTypeChecking env st force).2.1.recompile = true →
      (performTypeChecking env st force).1.typeCheckLogs =
        st.typeCheckLogs ++ env.tscOutput) ∧
    ((startTypeChecking env st force).2.1.recompile = false →
      (performTypeChecking env st force).1.typeCheckLogs =
        [skipLogLine,
          jsonStringify (startTypeChecking env st force).1.checksums]) := by
  constructor
  · intro hrec
    cases hsts : st.typeCheckStatus
    case CHECKING => exact absurd hsts hts
    all_goals
      simp only [performTypeChecking, freshTypeChecking, hsts, hrec, eq_self_iff_true, if_true]
    all_goals
      by_cases hoc : env.procOutcome = ProcOutcome.close 0
      · rw [hoc]
        simp only [watch_close_zero]
        cases hcs : (startTypeChecking env st force).2.1.checksums <;>
          cases hw : env.writeOk <;>
            simp [start_preserves_logs]
      · simp only [watch_not_zero _ _ hoc]
        simp [start_preserves_logs]
  · intro hrec
    cases hsts : st.typeCheckStatus
    case CHECKING => exact absurd hsts hts
    all_goals
      simp [performTypeChecking, freshTypeChecking, hsts, hrec, setTypeCheckingStatus]

/-- Witness for C8's amended statement at a concrete skip invocation. -/
theorem logs_append_policy_witness :
    (performTypeChecking
      ⟨HashFile.valid [("a.ts", "h1")], some [("a.ts", "h1")], [],
        ProcOutcome.close 0, true⟩ initialNode false).1.typeCheckLogs =
      [skipLogLine,
        jsonStringify
          (startTypeChecking
            ⟨HashFile.valid [("a.ts", "h1")], some [("a.ts", "h1")], [],
              ProcOutcome.close 0, true⟩ initialNode false).1.checksums] :=
  (logs_append_policy
    ⟨HashFile.valid [("a.ts", "h1")], some [("a.ts", "h1")], [],
      ProcOutcome.close 0, true⟩ initialNode false
    (by simp [initialNode])).2 (by decide)

theorem perform_eq_fresh (env : InvocationEnv) (st : NodeState) (force : Bool)
    (hts : st.typeCheckStatus ≠ TypeCheckStatus.CHECKING) :
    performTypeChecking env st force = freshTypeChecking env st force := by
  cases hsts : st.typeCheckStatus
  case CHECKING => exact absurd hsts hts
  all_goals simp [performTypeChecking, hsts]

theorem persist_fresh (env : InvocationEnv) (st : NodeState) (force : Bool) :
    ((freshTypeChecking env st force).2.1 = InvocationResult.errored →
      ∀ m, Effect.writeChecksums m ∉ (freshTypeChecking env st force).2.2) ∧
    (∀ m, Effect.writeChecksums m ∈ (freshTypeChecking env st force).2.2 →
      env.procOutcome = ProcOutcome.close 0 ∧
      ∃ pre post, (freshTypeChecking env st force).2.2 = pre ++ post ∧
        Effect.statusSet TypeCheckStatus.SUCCESS ∈ pre ∧
        Effect.writeChecksums m ∈ post ∧
        ∀ m', Effect.writeChecksums m' ∉ pre) := by
  cases hrec : (startTypeChecking env st force).2.1.recompile
  · -- skip branch: completes, and no effect in the trace is a write
    have hnw : ∀ m, Effect.writeChecksums m ∉ (freshTypeChecking env st force).2.2 := by
      intro m
      simp only [freshTypeChecking, hrec, Bool.false_eq_true, if_false,
        setTypeCheckingStatus, List.mem_append, List.mem_singleton]
      rintro ((h | h) | h)
      · exact write_not_in_start env st force m h
      · cases h
      · cases h
    constructor
    · intro _ m
      exact hnw m
    · intro m hm
      exact absurd hm (hnw m)
  · -- recompile branch
    by_cases hoc : env.procOutcome = ProcOutcome.close 0
    · rw [hoc]
      simp only [freshTypeChecking, hrec, eq_self_iff_true, if_true, hoc,
        watch_close_zero]
      cases hcs : (startTypeChecking env st force).2.1.checksums with
      | none =>
          constructor
          · intro h
            cases h
          · intro m hm
            simp only [List.mem_append] at hm
            rcases hm with h | h
            · exact absurd h (write_not_in_start env st force m)
            · simp at h
      | some cs =>
          cases hw : env.writeOk
          · simp only [Bool.false_eq_true, if_false]
            constructor
            · intro h
              cases h
            · intro m hm
              refine ⟨trivial,
                (startTypeChecking env st force).2.2 ++
                  [Effect.statusSet TypeCheckStatus.SUCCESS,
                    Effect.logInfo "Package safe-compiled"],
                [Effect.writeChecksums cs, Effect.logWarn checksumWriteWarnMsg],
                by simp, by simp, ?_, ?_⟩
              · have hmcs : m = cs := by
                  simp only [List.mem_append] at hm
                  rcases hm with (h | h) | h
                  · exact absurd h (write_not_in_start env st force m)
                  · simp at h
                  · simpa using h
                simp [hmcs]
              · intro m'
                simp only [List.mem_append]
                rintro (h | h)
                · exact write_not_in_start env st force m' h
                · simp at h
          · simp only [eq_self_iff_true, if_true]
            constructor
            · intro h
              cases h
            · intro m hm
              refine ⟨trivial,
                (startTypeChecking env st force).2.2 ++
                  [Effect.statusSet TypeCheckStatus.SUCCESS,
                    Effect.logInfo "Package safe-compiled"],
                [Effect.writeChecksums cs, Effect.logInfo checksumWrittenMsg],
                by simp, by simp, ?_, ?_⟩
              · have hmcs : m = cs := by
                  simp only [List.mem_append] at hm
                  rcases hm with (h | h) | h
                  · exact absurd h (write_not_in_start env st force m)
                  · simp at h
                  · simpa using h
                simp [hmcs]
              · intro m'
                simp only [List.mem_append]
                rintro (h | h)
                · exact write_not_in_start env st force m' h
                · simp at h
    · simp only [freshTypeChecking, hrec, eq_self_iff_true, if_true,
        watch_not_zero _ _ hoc]
      constructor
      · intro _ m
        simp only [List.mem_append]
        rintro (h | h)
        · exact write_not_in_start env st force m h
        · simp at h
      · intro m hm
        simp only [List.mem_append] at hm
        rcases hm with h | h
        · exact absurd h (write_not_in_start env st force m)
        · simp at h

/-- C6: the checksum-store write happens only after the node's own
type-check reached `SUCCESS`: an invocation that ends in error performs no
write at all, and whenever a write occurs in the effect trace, the subprocess
exited with code 0 and the trace splits into a write-free prefix containing
the `SUCCESS` transition, followed by a suffix carrying the write — the map
is never persisted speculatively before the subprocess outcome. -/
theorem persist_only_after_success (env : InvocationEnv) (st : NodeState)
    (force : Bool) :
    ((performTypeChecking env st force).2.1 = InvocationResult.errored →
      ∀ m, Effect.writeChecksums m ∉ (performTypeChecking env st force).2.2) ∧
    (∀ m, Effect.writeChecksums m ∈ (performTypeChecking env st force).2.2 →
      env.procOutcome = ProcOutcome.close 0 ∧
      ∃ pre post, (performTypeChecking env st force).2.2 = pre ++ post ∧
        Effect.statusSet TypeCheckStatus.SUCCESS ∈ pre ∧
        Effect.writeChecksums m ∈ post ∧
        ∀ m', Effect.writeChecksums m' ∉ pre) := by
  by_cases hts : st.typeCheckStatus = TypeCheckStatus.CHECKING
  · -- a request attaching to an in-flight run never writes
    have hnw : ∀ m,
        Effect.writeChecksums m ∉ (performTypeChecking env st force).2.2 := by
      intro m
      simp only [performTypeChecking, hts]
      exact write_not_in_watch st env.procOutcome m
    constructor
    · intro _ m
      exact hnw m
    · intro m hm
      exact absurd hm (hnw m)
  · rw [perform_eq_fresh env st force hts]
    exact persist_fresh env st force

/-- Witness for C6 at a concrete forced successful run whose write occurs. -/
theorem persist_only_after_success_witness :
    ProcOutcome.close 0 = ProcOutcome.close 0 ∧
    ∃ pre post,
      (performTypeChecking
        ⟨HashFile.absent, some [("a.ts", "h1")], [], ProcOutcome.close 0, true⟩
        initialNode true).2.2 = pre ++ post ∧
      Effect.statusSet TypeCheckStatus.SUCCESS ∈ pre ∧
      Effect.writeChecksums [("a.ts", "h1")] ∈ post ∧
      ∀ m', Effect.writeChecksums m' ∉ pre :=
  (persist_only_after_success
    ⟨HashFile.absent, some [("a.ts", "h1")], [], ProcOutcome.close 0, true⟩
    initialNode true).2 [("a.ts", "h1")] (by decide)

end Microlambda
